import Mathlib

/-!
Verification development for the `speedrun` HTTP speed-test tool
(shallow embedding of `src/downloader.rs` and `src/output.rs`).

Modelling conventions:
* Rust `f64` second/rate values are modelled as exact rationals (`ℚ`).
  Every concrete input used in a theorem below is exactly representable
  in binary floating point and every arithmetic step on it is exact in
  `f64` (multiplication by 8, division of a power by itself, comparison
  against integer literals), so the rational model agrees with the code
  at those points.
* `Instant` values are rationals (seconds); `Duration` is nonnegative,
  which we model with a saturating subtraction `satSub` (Rust's
  `Instant::elapsed` / `duration_since` saturate at zero).
* The monotonic clock is a function `clock : ℕ → ℚ` giving the value of
  the i-th clock read performed by the engine's own code; the engine
  threads a read counter through its state.
* Byte chunks are `List ℕ` (byte values); only lengths and concatenation
  matter to the claims.
-/

/-- Two-decimal formatting of a rational (Rust format specifier {:.2}).
Rust formats the exact binary value of the `f64` rounding half-to-even
at the second decimal; at every input used below the value is an exact
multiple of 1/100, where the two rounding rules agree. -/
def fmt2 (q : ℚ) : String :=
  let n : ℤ := round (q * 100)
  let sign := if n < 0 then "-" else ""
  let m := n.natAbs
  let frac := m % 100
  sign ++ toString (m / 100) ++ "." ++ (if frac < 10 then "0" else "") ++ toString frac

/-- SpeedUnit from `src/config.rs` (the enum definition itself is outside
the given sources; its four variants are named by the `match` in
`src/downloader.rs` lines 15-45). -/
inductive SpeedUnit where
  | BitsMetric
  | BitsBinary
  | BytesMetric
  | BytesBinary
deriving DecidableEq, Repr

/-- Rust `bytes_per_sec as u64`: truncation toward zero, negative inputs
clamp to 0, values above `u64::MAX` clamp to the maximum. -/
def f64AsU64 (q : ℚ) : ℕ :=
  if q < 0 then 0 else min ⌊q⌋.toNat (2 ^ 64 - 1)

/-- Modelled from the spec: the `bytesize` crate's SI display used by the
`BytesMetric` branch of `format_speed` (`ByteSize::b(n).display().si()`)
is not part of the given sources.  Per the spec it is decimal (powers of
1000) byte formatting, with inclusive `>=` thresholds and the zero-rate
string reading `0.00 B` (before the appended `/s`). -/
def byteSizeDisplaySi (b : ℕ) : String :=
  if b ≥ 1000000000 then fmt2 ((b : ℚ) / 1000000000) ++ " GB"
  else if b ≥ 1000000 then fmt2 ((b : ℚ) / 1000000) ++ " MB"
  else if b ≥ 1000 then fmt2 ((b : ℚ) / 1000) ++ " KB"
  else fmt2 (b : ℚ) ++ " B"

/-- Modelled from the spec: the `bytesize` crate's default (binary,
powers of 1024) display used by the `BytesBinary` branch of
`format_speed`; not part of the given sources.  Per the spec it is IEC
(powers of 1024) byte formatting with inclusive `>=` thresholds. -/
def byteSizeDisplayBinary (b : ℕ) : String :=
  if b ≥ 1073741824 then fmt2 ((b : ℚ) / 1073741824) ++ " GB"
  else if b ≥ 1048576 then fmt2 ((b : ℚ) / 1048576) ++ " MB"
  else if b ≥ 1024 then fmt2 ((b : ℚ) / 1024) ++ " KB"
  else fmt2 (b : ℚ) ++ " B"

/-- Function `format_speed` from `src/downloader.rs` lines 14-47. -/
def format_speed (bytes_per_sec : ℚ) (unit : SpeedUnit) : String :=
  match unit with
  | .BitsMetric =>
    let bits_per_sec := bytes_per_sec * 8
    if bits_per_sec ≥ 1000000000 then fmt2 (bits_per_sec / 1000000000) ++ " Gbps"
    else if bits_per_sec ≥ 1000000 then fmt2 (bits_per_sec / 1000000) ++ " Mbps"
    else if bits_per_sec ≥ 1000 then fmt2 (bits_per_sec / 1000) ++ " Kbps"
    else fmt2 bits_per_sec ++ " bps"
  | .BitsBinary =>
    let bits_per_sec := bytes_per_sec * 8
    if bits_per_sec ≥ 1073741824 then fmt2 (bits_per_sec / 1073741824) ++ " Gibps"
    else if bits_per_sec ≥ 1048576 then fmt2 (bits_per_sec / 1048576) ++ " Mibps"
    else if bits_per_sec ≥ 1024 then fmt2 (bits_per_sec / 1024) ++ " Kibps"
    else fmt2 bits_per_sec ++ " bps"
  | .BytesMetric => byteSizeDisplaySi (f64AsU64 bytes_per_sec) ++ "/s"
  | .BytesBinary => byteSizeDisplayBinary (f64AsU64 bytes_per_sec) ++ "/s"

/-- Function `escape_csv` from `src/output.rs` lines 116-122, on `List Char`
(Rust `s.replace('"', "\x22\x22")` doubles every double-quote; the
quoted branch wraps the result in double quotes). -/
def escape_csv (s : List Char) : List Char :=
  if s.contains ',' ∨ s.contains '"' ∨ s.contains '\n' then
    '"' :: (s.flatMap fun c => if c = '"' then ['"', '"'] else [c]) ++ ['"']
  else s

/-- Undouble interior double-quotes: the inverse of the doubling done by
`escape_csv` inside a quoted field (standard CSV unquoting, RFC 4180). -/
def csvUndouble : List Char → List Char
  | [] => []
  | '"' :: '"' :: rest => '"' :: csvUndouble rest
  | c :: rest => c :: csvUndouble rest

/-- Standard CSV unquoting: a field that starts and ends with a double
quote (and has length ≥ 2) is stripped of the outer quotes and interior
doubled quotes are undoubled; any other field is taken verbatim. -/
def csvUnquote (s : List Char) : List Char :=
  match s with
  | '"' :: rest =>
    if rest.getLast? = some '"' then csvUndouble rest.dropLast else s
  | _ => s

/-! ## The streaming download engine, `download_file` (src/downloader.rs lines 58-144)

The effectful ingredients are explicit parameters:
* `net : NetBehavior` — what the network does for this invocation
  (send failure, or a response with status / Content-Length / body stream);
  `url` and `user_agent` influence only this behavior, so they are carried
  as inert parameters.
* `buildOk` — whether `Client::builder()...build()?` (lines 64-66) succeeds.
* `createOk` — whether `File::create(path)` (line 102) succeeds.
* `writeOk i` — whether the i-th `f.write_all(&chunk)` (line 129) succeeds.
* `clock i` — the value returned by the i-th monotonic-clock read performed
  by the function's own code (`Instant::now()` and `.elapsed()` each read
  the clock once); the engine threads the read index through its state.
-/

/-- One body chunk, as delivered by `bytes_stream()`: a list of byte values. -/
abbrev Chunk := List ℕ

/-- Saturating subtraction on ℚ: a Rust `Duration` is nonnegative and
`Instant::elapsed` / `duration_since` saturate at zero. -/
def satSub (a b : ℚ) : ℚ := max (a - b) 0

/-- A completed header exchange: status, optional Content-Length, and the
body stream; each stream item is a chunk or a transport error (the `chunk?`
at line 108 aborts the loop on an error item). -/
structure HttpResponse where
  status : ℕ
  contentLength : Option ℕ
  body : List (Except String Chunk)

/-- Network behavior of one invocation: `client.get(url).send().await?`
(line 70) either fails or yields a response. -/
inductive NetBehavior where
  | sendErr (msg : String)
  | resp (r : HttpResponse)

/-- Structure `DownloadResult` from src/downloader.rs lines 49-56. -/
structure DownloadResult where
  status_code : ℕ
  connect_time : ℚ
  ttfb : ℚ
  total_time : ℚ
  bytes_downloaded : ℕ
deriving DecidableEq, Repr

/-- The error cases of `download_file` (each `?` operator in lines 64-130). -/
inductive DlError where
  | clientBuild
  | send (msg : String)
  | chunkTransfer (msg : String)
  | fileCreate
  | fileWrite
deriving DecidableEq, Repr

/-- The mutable state of the download loop (lines 95-99), plus the two
instrumentation counters of the embedding: `reads` is the index of the next
monotonic-clock read, `wIdx` the index of the next file write. -/
structure LoopState where
  downloaded : ℕ
  ttfb : Option ℚ
  fileContents : Option (List ℕ)
  lastUpdate : ℚ
  lastDownloaded : ℕ
  reads : ℕ
  msgs : List String
  wIdx : ℕ

/-- One iteration of the loop body, without the file write: in source
order, record `ttfb` on the first chunk only (lines 110-112);
`downloaded += chunk.len()` (line 114); read `now = Instant::now()` and,
if at least 100ms (`as_millis() >= 100`, i.e. truncated milliseconds)
have passed since `last_update`, emit a speed message and slide the
window (lines 118-126). -/
def loopStep (unit : SpeedUnit) (clock : ℕ → ℚ) (ttfbStart : ℚ) (chunk : Chunk)
    (st : LoopState) : LoopState :=
  let st1 :=
    match st.ttfb with
    | none => { st with ttfb := some (satSub (clock st.reads) ttfbStart),
                        reads := st.reads + 1 }
    | some _ => st
  let st2 := { st1 with downloaded := st1.downloaded + chunk.length }
  let now := clock st2.reads
  let st3 := { st2 with reads := st2.reads + 1 }
  let upd :=
    if 100 ≤ ⌊satSub now st3.lastUpdate * 1000⌋ then
      (st3.msgs ++ [format_speed
          (((st3.downloaded - st3.lastDownloaded : ℕ) : ℚ) / satSub now st3.lastUpdate) unit],
       now, st3.downloaded)
    else (st3.msgs, st3.lastUpdate, st3.lastDownloaded)
  { st3 with msgs := upd.1, lastUpdate := upd.2.1, lastDownloaded := upd.2.2 }

/-- The while-let loop of lines 107-131.  Per iteration: `chunk?`
(line 108) aborts on a transport error; otherwise `loopStep` updates the
counters and progress, then the chunk is appended to the open file, if
any (lines 128-130), aborting on a write error. -/
def runLoop (unit : SpeedUnit) (clock : ℕ → ℚ) (writeOk : ℕ → Bool) (ttfbStart : ℚ) :
    List (Except String Chunk) → LoopState → Except DlError LoopState
  | [], st => .ok st
  | item :: rest, st =>
    match item with
    | .error e => .error (.chunkTransfer e)
    | .ok chunk =>
      let st4 := loopStep unit clock ttfbStart chunk st
      match st4.fileContents with
      | some content =>
        if writeOk st4.wIdx then
          runLoop unit clock writeOk ttfbStart rest
            { st4 with fileContents := some (content ++ chunk), wIdx := st4.wIdx + 1 }
        else .error .fileWrite
      | none => runLoop unit clock writeOk ttfbStart rest st4

/-- What a run of the engine produced, beyond the `DownloadResult`: the
bytes written to the save file (if a save path was given), the transient
progress-bar messages, the total number of monotonic-clock reads, and
whether the bounded-bar template was chosen (lines 82-86). -/
structure EngineOutcome where
  result : DownloadResult
  fileWritten : Option (List ℕ)
  progressMsgs : List String
  clockReads : ℕ
  usedBar : Bool

/-- Function `download_file` from src/downloader.rs lines 58-144.  Clock reads, in
order: read 0 is `start` (line 68), read 1 is `start.elapsed()` for
`connect_time` (line 71), read 2 is `ttfb_start` (line 76), read 3
initializes `last_update` (line 98), then the loop reads (one per chunk,
plus one extra on the first chunk for `ttfb`), and a final read for
`total_time` (line 135).  The file is created (line 102) after the
`last_update` read, before the loop. -/
def download_file (url : String) (save_path : Option String) (user_agent : String)
    (unit : SpeedUnit) (net : NetBehavior) (buildOk : Bool) (createOk : Bool)
    (writeOk : ℕ → Bool) (clock : ℕ → ℚ) : Except DlError EngineOutcome :=
  if buildOk then
    let start := clock 0
    match net with
    | .sendErr e => .error (.send e)
    | .resp r =>
      let connect_time := satSub (clock 1) start
      let status_code := r.status
      let total_size := r.contentLength.getD 0
      let ttfbStart := clock 2
      let init : Except DlError (Option (List ℕ)) :=
        match save_path with
        | some _ => if createOk then .ok (some []) else .error .fileCreate
        | none => .ok none
      match init with
      | .error e => .error e
      | .ok fc =>
        match runLoop unit clock writeOk ttfbStart r.body
            { downloaded := 0, ttfb := none, fileContents := fc, lastUpdate := clock 3,
              lastDownloaded := 0, reads := 4, msgs := [], wIdx := 0 } with
        | .error e => .error e
        | .ok st =>
          let total_time := satSub (clock st.reads) start
          .ok { result := { status_code := status_code, connect_time := connect_time,
                            ttfb := st.ttfb.getD connect_time, total_time := total_time,
                            bytes_downloaded := st.downloaded },
                fileWritten := st.fileContents, progressMsgs := st.msgs,
                clockReads := st.reads + 1, usedBar := decide (0 < total_size) }
  else .error .clientBuild

/-- A body stream in which every item is a chunk (no transport error). -/
def okBody (cs : List Chunk) : List (Except String Chunk) := cs.map Except.ok

/-- Everything in a `LoopState` except the progress messages: the part of
the state that can influence control flow and the returned result. -/
def stCore (st : LoopState) : ℕ × Option ℚ × Option (List ℕ) × ℚ × ℕ × ℕ × ℕ :=
  (st.downloaded, st.ttfb, st.fileContents, st.lastUpdate, st.lastDownloaded, st.reads, st.wIdx)

/-- Two loop outcomes agree up to progress messages. -/
def exceptCoreRel : Except DlError LoopState → Except DlError LoopState → Prop
  | .error e₁, .error e₂ => e₁ = e₂
  | .ok a, .ok b => stCore a = stCore b
  | _, _ => False

section FormatterLemmas

lemma fmt2_one : fmt2 1 = "1.00" := by
  have h : round ((1 : ℚ) * 100) = 100 := by norm_num [round_eq]
  unfold fmt2
  rw [h]
  rfl

lemma fmt2_zero : fmt2 0 = "0.00" := by
  have h : round ((0 : ℚ) * 100) = 0 := by norm_num [round_eq]
  unfold fmt2
  rw [h]
  rfl

lemma f64AsU64_eval (q : ℚ) (n : ℕ) (h1 : q = n) (h2 : min (Int.toNat n) (2 ^ 64 - 1) = n) :
    f64AsU64 q = n := by
  unfold f64AsU64
  rw [h1, if_neg (not_lt.mpr (Nat.cast_nonneg n)), Int.floor_natCast, h2]

end FormatterLemmas

section CsvLemmas

lemma csvUndouble_qq (l : List Char) : csvUndouble ('"' :: '"' :: l) = '"' :: csvUndouble l := rfl

lemma csvUndouble_cons_ne (c : Char) (hc : c ≠ '"') (l : List Char) :
    csvUndouble (c :: l) = c :: csvUndouble l := by
  cases l with
  | nil => simp [csvUndouble]
  | cons d u => simp [csvUndouble, hc]

lemma csvUndouble_double (s : List Char) :
    csvUndouble (s.flatMap fun c => if c = '"' then ['"', '"'] else [c]) = s := by
  induction s with
  | nil => rfl
  | cons c t ih =>
    by_cases hc : c = '"'
    · subst hc
      rw [List.flatMap_cons, if_pos rfl]
      simp only [List.append_eq, List.cons_append, List.nil_append]
      rw [csvUndouble_qq, ih]
    · rw [List.flatMap_cons, if_neg hc]
      simp only [List.append_eq, List.cons_append, List.nil_append]
      rw [csvUndouble_cons_ne c hc, ih]

lemma csvUnquote_no_quote (s : List Char) (h : s.contains '"' = false) :
    csvUnquote s = s := by
  cases s with
  | nil => rfl
  | cons c t =>
    have hc : c ≠ '"' := by
      intro hq
      subst hq
      simp [List.contains_cons] at h
    simp [csvUnquote, hc]

lemma csvUnquote_escape_quoted (s : List Char)
    (h : s.contains ',' ∨ s.contains '"' ∨ s.contains '\n') :
    csvUnquote (escape_csv s) = s := by
  rw [escape_csv, if_pos h]
  show csvUnquote ('"' :: ((s.flatMap fun c => if c = '"' then ['"', '"'] else [c]) ++ ['"'])) = s
  rw [csvUnquote]
  simp only [List.getLast?_concat, List.dropLast_concat, if_pos rfl]
  exact csvUndouble_double s

end CsvLemmas

section EngineLemmas

variable (unit : SpeedUnit) (clock : ℕ → ℚ) (writeOk : ℕ → Bool) (ttfbStart : ℚ)

lemma satSub_nonneg (a b : ℚ) : 0 ≤ satSub a b := le_max_right _ _

lemma satSub_le_satSub (a b c : ℚ) (h : a ≤ b) : satSub a c ≤ satSub b c :=
  max_le_max (sub_le_sub_right h c) le_rfl

lemma loopStep_downloaded (ch : Chunk) (st : LoopState) :
    (loopStep unit clock ttfbStart ch st).downloaded = st.downloaded + ch.length := by
  unfold loopStep
  cases h : st.ttfb <;> rfl

lemma loopStep_fileContents (ch : Chunk) (st : LoopState) :
    (loopStep unit clock ttfbStart ch st).fileContents = st.fileContents := by
  unfold loopStep
  cases h : st.ttfb <;> rfl

lemma loopStep_wIdx (ch : Chunk) (st : LoopState) :
    (loopStep unit clock ttfbStart ch st).wIdx = st.wIdx := by
  unfold loopStep
  cases h : st.ttfb <;> rfl

lemma loopStep_ttfb_none (ch : Chunk) (st : LoopState) (h : st.ttfb = none) :
    (loopStep unit clock ttfbStart ch st).ttfb = some (satSub (clock st.reads) ttfbStart) := by
  simp [loopStep, h]

lemma loopStep_ttfb_some (ch : Chunk) (st : LoopState) (t : ℚ) (h : st.ttfb = some t) :
    (loopStep unit clock ttfbStart ch st).ttfb = some t := by
  simp [loopStep, h]

lemma loopStep_reads_none (ch : Chunk) (st : LoopState) (h : st.ttfb = none) :
    (loopStep unit clock ttfbStart ch st).reads = st.reads + 2 := by
  simp [loopStep, h]

lemma loopStep_reads_some (ch : Chunk) (st : LoopState) (t : ℚ) (h : st.ttfb = some t) :
    (loopStep unit clock ttfbStart ch st).reads = st.reads + 1 := by
  simp [loopStep, h]

lemma runLoop_ok_of_ttfb_some (hw : ∀ i, writeOk i = true) (t : ℚ) :
    ∀ (cs : List Chunk) (st : LoopState), st.ttfb = some t →
      ∃ st', runLoop unit clock writeOk ttfbStart (okBody cs) st = .ok st' ∧
        st'.ttfb = some t ∧
        st'.downloaded = st.downloaded + (cs.map List.length).sum ∧
        st'.fileContents = st.fileContents.map (fun x => x ++ cs.flatten) ∧
        st'.reads = st.reads + cs.length := by
  intro cs
  induction cs with
  | nil =>
    intro st h
    refine ⟨st, rfl, h, by simp, ?_, by simp⟩
    cases st.fileContents <;> simp
  | cons c rest ih =>
    intro st h
    rw [okBody, List.map_cons, runLoop]
    rw [loopStep_fileContents]
    cases hfc : st.fileContents with
    | none =>
      dsimp only
      obtain ⟨st', hrun, ht, hd, hf, hr⟩ :=
        ih (loopStep unit clock ttfbStart c st) (loopStep_ttfb_some unit clock ttfbStart c st t h)
      refine ⟨st', hrun, ht, ?_, ?_, ?_⟩
      · rw [hd, loopStep_downloaded]
        simp only [List.map_cons, List.sum_cons]
        omega
      · rw [hf, loopStep_fileContents, hfc]
        simp
      · rw [hr, loopStep_reads_some unit clock ttfbStart c st t h]
        simp only [List.length_cons]
        omega
    | some content =>
      dsimp only
      rw [loopStep_wIdx, hw]
      rw [if_pos rfl]
      obtain ⟨st', hrun, ht, hd, hf, hr⟩ :=
        ih { loopStep unit clock ttfbStart c st with
              fileContents := some (content ++ c), wIdx := st.wIdx + 1 }
          (loopStep_ttfb_some unit clock ttfbStart c st t h)
      refine ⟨st', hrun, ht, ?_, ?_, ?_⟩
      · rw [hd]
        dsimp only
        rw [loopStep_downloaded]
        simp only [List.map_cons, List.sum_cons]
        omega
      · rw [hf]
        dsimp only
        simp [List.flatten_cons, List.append_assoc]
      · rw [hr]
        dsimp only
        rw [loopStep_reads_some unit clock ttfbStart c st t h]
        simp only [List.length_cons]
        omega

lemma runLoop_ok_of_ttfb_none (hw : ∀ i, writeOk i = true)
    (c : Chunk) (rest : List Chunk) (st : LoopState) (h : st.ttfb = none) :
    ∃ st', runLoop unit clock writeOk ttfbStart (okBody (c :: rest)) st = .ok st' ∧
      st'.ttfb = some (satSub (clock st.reads) ttfbStart) ∧
      st'.downloaded = st.downloaded + ((c :: rest).map List.length).sum ∧
      st'.fileContents = st.fileContents.map (fun x => x ++ (c :: rest).flatten) ∧
      st'.reads = st.reads + (c :: rest).length + 1 := by
  rw [okBody, List.map_cons, runLoop]
  rw [loopStep_fileContents]
  cases hfc : st.fileContents with
  | none =>
    dsimp only
    obtain ⟨st', hrun, ht, hd, hf, hr⟩ :=
      runLoop_ok_of_ttfb_some unit clock writeOk ttfbStart hw _ rest
        (loopStep unit clock ttfbStart c st)
        (loopStep_ttfb_none unit clock ttfbStart c st h)
    refine ⟨st', hrun, ht, ?_, ?_, ?_⟩
    · rw [hd, loopStep_downloaded]
      simp only [List.map_cons, List.sum_cons]
      omega
    · rw [hf, loopStep_fileContents, hfc]
      simp
    · rw [hr, loopStep_reads_none unit clock ttfbStart c st h]
      simp only [List.length_cons]
      omega
  | some content =>
    dsimp only
    rw [loopStep_wIdx, hw]
    rw [if_pos rfl]
    obtain ⟨st', hrun, ht, hd, hf, hr⟩ :=
      runLoop_ok_of_ttfb_some unit clock writeOk ttfbStart hw _ rest
        { loopStep unit clock ttfbStart c st with
            fileContents := some (content ++ c), wIdx := st.wIdx + 1 }
        (loopStep_ttfb_none unit clock ttfbStart c st h)
    refine ⟨st', hrun, ht, ?_, ?_, ?_⟩
    · rw [hd]
      dsimp only
      rw [loopStep_downloaded]
      simp only [List.map_cons, List.sum_cons]
      omega
    · rw [hf]
      dsimp only
      simp [List.flatten_cons, List.append_assoc]
    · rw [hr]
      dsimp only
      rw [loopStep_reads_none unit clock ttfbStart c st h]
      simp only [List.length_cons]
      omega

/-- Any successful run of the loop, over an arbitrary body stream: the
read counter never decreases, and the final `ttfb` is either untouched or
was set from some clock read against `ttfb_start`. -/
lemma runLoop_ok_shape :
    ∀ (body : List (Except String Chunk)) (st st' : LoopState),
      runLoop unit clock writeOk ttfbStart body st = .ok st' →
      st.reads ≤ st'.reads ∧
        (st'.ttfb = st.ttfb ∨ ∃ k, st'.ttfb = some (satSub (clock k) ttfbStart)) := by
  intro body
  induction body with
  | nil =>
    intro st st' h
    cases h
    exact ⟨le_rfl, Or.inl rfl⟩
  | cons item rest ih =>
    intro st st' h
    cases item with
    | error e =>
      rw [runLoop] at h
      cases h
    | ok chunk =>
      rw [runLoop] at h
      have hstep : ∀ st2, runLoop unit clock writeOk ttfbStart rest st2 = .ok st' →
          st2.ttfb = (loopStep unit clock ttfbStart chunk st).ttfb →
          st2.reads = (loopStep unit clock ttfbStart chunk st).reads →
          st.reads ≤ st'.reads ∧
            (st'.ttfb = st.ttfb ∨ ∃ k, st'.ttfb = some (satSub (clock k) ttfbStart)) := by
        intro st2 hrun ht hr
        obtain ⟨h1, h2⟩ := ih st2 st' hrun
        constructor
        · refine le_trans ?_ h1
          rw [hr]
          cases hn : st.ttfb with
          | none => rw [loopStep_reads_none unit clock ttfbStart chunk st hn]; omega
          | some t => rw [loopStep_reads_some unit clock ttfbStart chunk st t hn]; omega
        · cases h2 with
          | inr hk => exact Or.inr hk
          | inl he =>
            rw [ht] at he
            cases hn : st.ttfb with
            | none =>
              rw [loopStep_ttfb_none unit clock ttfbStart chunk st hn] at he
              exact Or.inr ⟨st.reads, he⟩
            | some t =>
              rw [loopStep_ttfb_some unit clock ttfbStart chunk st t hn] at he
              exact Or.inl he
      cases hfc : (loopStep unit clock ttfbStart chunk st).fileContents with
      | none =>
        rw [hfc] at h
        dsimp only at h
        exact hstep _ h rfl rfl
      | some content =>
        rw [hfc] at h
        dsimp only at h
        by_cases hwk : writeOk (loopStep unit clock ttfbStart chunk st).wIdx = true
        · rw [if_pos hwk] at h
          exact hstep _ h rfl rfl
        · rw [if_neg hwk] at h
          cases h

lemma download_file_ok_save (url ua p : String) (status : ℕ) (cl : Option ℕ)
    (cs : List Chunk) (hw : ∀ i, writeOk i = true) :
    ∃ out, download_file url (some p) ua unit (.resp ⟨status, cl, okBody cs⟩)
        true true writeOk clock = .ok out ∧
      out.result.status_code = status ∧
      out.result.connect_time = satSub (clock 1) (clock 0) ∧
      out.result.bytes_downloaded = (cs.map List.length).sum ∧
      out.result.ttfb = (if cs = [] then satSub (clock 1) (clock 0) else satSub (clock 4) (clock 2)) ∧
      out.result.total_time = satSub (clock (4 + cs.length + (if cs = [] then 0 else 1))) (clock 0) ∧
      out.fileWritten = some cs.flatten ∧
      out.clockReads = 5 + cs.length + (if cs = [] then 0 else 1) := by
  unfold download_file
  rw [if_pos rfl]
  dsimp only
  rw [if_pos rfl]
  dsimp only
  cases cs with
  | nil =>
    rw [show okBody ([] : List Chunk) = [] from rfl, runLoop]
    dsimp only
    refine ⟨_, rfl, rfl, rfl, by simp, by simp, by simp, by simp, by simp⟩
  | cons c rest =>
    obtain ⟨st', hrun, ht, hd, hf, hr⟩ :=
      runLoop_ok_of_ttfb_none unit clock writeOk (clock 2) hw c rest
        { downloaded := 0, ttfb := none, fileContents := some [], lastUpdate := clock 3,
          lastDownloaded := 0, reads := 4, msgs := [], wIdx := 0 } rfl
    rw [hrun]
    dsimp only
    refine ⟨_, rfl, rfl, rfl, ?_, ?_, ?_, ?_, ?_⟩
    · rw [hd]
      simp
    · rw [ht]
      simp
    · rw [hr]
      simp only [List.length_cons]
      have : (c :: rest) ≠ [] := List.cons_ne_nil c rest
      simp [this]
    · rw [hf]
      simp
    · rw [hr]
      simp only [List.length_cons]
      simp [List.cons_ne_nil]
      omega

lemma download_file_ok_nosave (url ua : String) (status : ℕ) (cl : Option ℕ)
    (createOk : Bool) (cs : List Chunk) (hw : ∀ i, writeOk i = true) :
    ∃ out, download_file url none ua unit (.resp ⟨status, cl, okBody cs⟩)
        true createOk writeOk clock = .ok out ∧
      out.result.status_code = status ∧
      out.result.connect_time = satSub (clock 1) (clock 0) ∧
      out.result.bytes_downloaded = (cs.map List.length).sum ∧
      out.result.ttfb = (if cs = [] then satSub (clock 1) (clock 0) else satSub (clock 4) (clock 2)) ∧
      out.result.total_time = satSub (clock (4 + cs.length + (if cs = [] then 0 else 1))) (clock 0) ∧
      out.fileWritten = none ∧
      out.clockReads = 5 + cs.length + (if cs = [] then 0 else 1) := by
  unfold download_file
  rw [if_pos rfl]
  dsimp only
  cases cs with
  | nil =>
    rw [show okBody ([] : List Chunk) = [] from rfl, runLoop]
    dsimp only
    refine ⟨_, rfl, rfl, rfl, by simp, by simp, by simp, by simp, by simp⟩
  | cons c rest =>
    obtain ⟨st', hrun, ht, hd, hf, hr⟩ :=
      runLoop_ok_of_ttfb_none unit clock writeOk (clock 2) hw c rest
        { downloaded := 0, ttfb := none, fileContents := none, lastUpdate := clock 3,
          lastDownloaded := 0, reads := 4, msgs := [], wIdx := 0 } rfl
    rw [hrun]
    dsimp only
    refine ⟨_, rfl, rfl, rfl, ?_, ?_, ?_, ?_, ?_⟩
    · rw [hd]
      simp
    · rw [ht]
      simp
    · rw [hr]
      simp only [List.length_cons]
      have : (c :: rest) ≠ [] := List.cons_ne_nil c rest
      simp [this]
    · rw [hf]
      simp
    · rw [hr]
      simp only [List.length_cons]
      simp [List.cons_ne_nil]
      omega

/-- Successful loop runs over an error-free body, with no assumption on
the write behavior: the byte counter accumulates every chunk length and
the file contents accumulate every chunk in arrival order. -/
lemma runLoop_ok_inversion (cs : List Chunk) :
    ∀ st st', runLoop unit clock writeOk ttfbStart (okBody cs) st = .ok st' →
      st'.downloaded = st.downloaded + (cs.map List.length).sum ∧
      st'.fileContents = st.fileContents.map (fun x => x ++ cs.flatten) := by
  induction cs with
  | nil =>
    intro st st' h
    cases h
    refine ⟨by simp, ?_⟩
    cases st.fileContents <;> simp
  | cons c rest ih =>
    intro st st' h
    rw [okBody, List.map_cons, runLoop] at h
    rw [loopStep_fileContents] at h
    cases hfc : st.fileContents with
    | none =>
      rw [hfc] at h
      dsimp only at h
      obtain ⟨hd, hf⟩ := ih _ _ h
      constructor
      · rw [hd, loopStep_downloaded]
        simp only [List.map_cons, List.sum_cons]
        omega
      · rw [hf, loopStep_fileContents, hfc]
        simp
    | some content =>
      rw [hfc] at h
      dsimp only at h
      by_cases hwk : writeOk (loopStep unit clock ttfbStart c st).wIdx = true
      · rw [if_pos hwk] at h
        obtain ⟨hd, hf⟩ := ih _ _ h
        constructor
        · rw [hd]
          dsimp only
          rw [loopStep_downloaded]
          simp only [List.map_cons, List.sum_cons]
          omega
        · rw [hf]
          dsimp only
          simp [List.flatten_cons, List.append_assoc]
      · rw [if_neg hwk] at h
        cases h

end EngineLemmas

section CongrLemmas

lemma loopStep_core_congr (u₁ u₂ : SpeedUnit) (clock : ℕ → ℚ) (tts : ℚ) (ch : Chunk) :
    ∀ st₁ st₂, stCore st₁ = stCore st₂ →
      stCore (loopStep u₁ clock tts ch st₁) = stCore (loopStep u₂ clock tts ch st₂) := by
  rintro ⟨d₁, t₁, f₁, lu₁, ld₁, r₁, m₁, w₁⟩ ⟨d₂, t₂, f₂, lu₂, ld₂, r₂, m₂, w₂⟩ h
  simp only [stCore, Prod.mk.injEq] at h
  obtain ⟨h1, h2, h3, h4, h5, h6, h7⟩ := h
  subst h1 h2 h3 h4 h5 h6 h7
  cases t₁ with
  | none =>
    dsimp only [loopStep]
    by_cases hc : (100 : ℤ) ≤ ⌊satSub (clock (r₁ + 1)) lu₁ * 1000⌋
    · simp [stCore, hc]
    · simp [stCore, hc]
  | some v =>
    dsimp only [loopStep]
    by_cases hc : (100 : ℤ) ≤ ⌊satSub (clock r₁) lu₁ * 1000⌋
    · simp [stCore, hc]
    · simp [stCore, hc]

lemma runLoop_core_congr (u₁ u₂ : SpeedUnit) (clock : ℕ → ℚ) (w : ℕ → Bool) (tts : ℚ) :
    ∀ (body : List (Except String Chunk)) st₁ st₂, stCore st₁ = stCore st₂ →
      exceptCoreRel (runLoop u₁ clock w tts body st₁) (runLoop u₂ clock w tts body st₂) := by
  intro body
  induction body with
  | nil =>
    intro st₁ st₂ h
    exact h
  | cons item rest ih =>
    intro st₁ st₂ h
    cases item with
    | error e =>
      rw [runLoop, runLoop]
      rfl
    | ok chunk =>
      rw [runLoop, runLoop]
      have hAB := loopStep_core_congr u₁ u₂ clock tts chunk _ _ h
      have hf : (loopStep u₁ clock tts chunk st₁).fileContents
          = (loopStep u₂ clock tts chunk st₂).fileContents :=
        congrArg (fun p => p.2.2.1) hAB
      have hwi : (loopStep u₁ clock tts chunk st₁).wIdx
          = (loopStep u₂ clock tts chunk st₂).wIdx :=
        congrArg (fun p => p.2.2.2.2.2.2) hAB
      cases hfc : (loopStep u₁ clock tts chunk st₁).fileContents with
      | none =>
        have hfc₂ : (loopStep u₂ clock tts chunk st₂).fileContents = none := hf.symm.trans hfc
        rw [hfc₂]
        dsimp only
        exact ih _ _ hAB
      | some content =>
        have hfc₂ : (loopStep u₂ clock tts chunk st₂).fileContents = some content :=
          hf.symm.trans hfc
        rw [hfc₂]
        dsimp only
        rw [hwi]
        by_cases hwk : w ((loopStep u₂ clock tts chunk st₂).wIdx) = true
        · rw [if_pos hwk, if_pos hwk]
          apply ih
          simp only [stCore, Prod.mk.injEq] at hAB ⊢
          obtain ⟨g1, g2, g3, g4, g5, g6, g7⟩ := hAB
          exact ⟨g1, g2, by simp, g4, g5, g6, by simp⟩
        · rw [if_neg hwk, if_neg hwk]
          rfl

lemma download_file_ok_inv (url ua : String) (sp : Option String) (unit : SpeedUnit)
    (net : NetBehavior) (b c : Bool) (w : ℕ → Bool) (clock : ℕ → ℚ) (out : EngineOutcome)
    (h : download_file url sp ua unit net b c w clock = .ok out) :
    ∃ r st fc, net = .resp r ∧
      (sp = none ∧ fc = none ∨ sp ≠ none ∧ fc = some []) ∧
      runLoop unit clock w (clock 2) r.body
        { downloaded := 0, ttfb := none, fileContents := fc, lastUpdate := clock 3,
          lastDownloaded := 0, reads := 4, msgs := [], wIdx := 0 } = .ok st ∧
      out.result.status_code = r.status ∧
      out.result.connect_time = satSub (clock 1) (clock 0) ∧
      out.result.ttfb = st.ttfb.getD (satSub (clock 1) (clock 0)) ∧
      out.result.total_time = satSub (clock st.reads) (clock 0) ∧
      out.result.bytes_downloaded = st.downloaded ∧
      out.fileWritten = st.fileContents ∧
      out.clockReads = st.reads + 1 := by
  unfold download_file at h
  cases b with
  | false => cases h
  | true =>
    rw [if_pos rfl] at h
    cases net with
    | sendErr e => cases h
    | resp r =>
      dsimp only at h
      cases sp with
      | none =>
        dsimp only at h
        cases hrun : runLoop unit clock w (clock 2) r.body
            { downloaded := 0, ttfb := none, fileContents := none, lastUpdate := clock 3,
              lastDownloaded := 0, reads := 4, msgs := [], wIdx := 0 } with
        | error e =>
          rw [hrun] at h
          cases h
        | ok st =>
          rw [hrun] at h
          dsimp only at h
          cases h
          exact ⟨r, st, none, rfl, Or.inl ⟨rfl, rfl⟩, hrun, rfl, rfl, rfl, rfl, rfl, rfl, rfl⟩
      | some p =>
        cases c with
        | false => cases h
        | true =>
          rw [if_pos rfl] at h
          dsimp only at h
          cases hrun : runLoop unit clock w (clock 2) r.body
              { downloaded := 0, ttfb := none, fileContents := some [], lastUpdate := clock 3,
                lastDownloaded := 0, reads := 4, msgs := [], wIdx := 0 } with
          | error e =>
            rw [hrun] at h
            cases h
          | ok st =>
            rw [hrun] at h
            dsimp only at h
            cases h
            exact ⟨r, st, some [], rfl, Or.inr ⟨by simp, rfl⟩, hrun, rfl, rfl, rfl, rfl, rfl,
              rfl, rfl⟩

lemma download_file_unit_congr (url ua : String) (sp : Option String) (u₁ u₂ : SpeedUnit)
    (net : NetBehavior) (b c : Bool) (w : ℕ → Bool) (clock : ℕ → ℚ) :
    (download_file url sp ua u₁ net b c w clock).map (fun o => o.result) =
    (download_file url sp ua u₂ net b c w clock).map (fun o => o.result) := by
  unfold download_file
  cases b with
  | false => rfl
  | true =>
    rw [if_pos rfl, if_pos rfl]
    cases net with
    | sendErr e => rfl
    | resp r =>
      dsimp only
      have main : ∀ fc : Option (List ℕ),
          (match runLoop u₁ clock w (clock 2) r.body
              { downloaded := 0, ttfb := none, fileContents := fc, lastUpdate := clock 3,
                lastDownloaded := 0, reads := 4, msgs := [], wIdx := 0 } with
            | Except.error e => Except.error e
            | Except.ok st =>
              Except.ok
                { result := { status_code := r.status,
                              connect_time := satSub (clock 1) (clock 0),
                              ttfb := st.ttfb.getD (satSub (clock 1) (clock 0)),
                              total_time := satSub (clock st.reads) (clock 0),
                              bytes_downloaded := st.downloaded },
                  fileWritten := st.fileContents, progressMsgs := st.msgs,
                  clockReads := st.reads + 1,
                  usedBar := decide (0 < r.contentLength.getD 0) } : Except DlError EngineOutcome).map
              (fun o => o.result) =
          (match runLoop u₂ clock w (clock 2) r.body
              { downloaded := 0, ttfb := none, fileContents := fc, lastUpdate := clock 3,
                lastDownloaded := 0, reads := 4, msgs := [], wIdx := 0 } with
            | Except.error e => Except.error e
            | Except.ok st =>
              Except.ok
                { result := { status_code := r.status,
                              connect_time := satSub (clock 1) (clock 0),
                              ttfb := st.ttfb.getD (satSub (clock 1) (clock 0)),
                              total_time := satSub (clock st.reads) (clock 0),
                              bytes_downloaded := st.downloaded },
                  fileWritten := st.fileContents, progressMsgs := st.msgs,
                  clockReads := st.reads + 1,
                  usedBar := decide (0 < r.contentLength.getD 0) } : Except DlError EngineOutcome).map
              (fun o => o.result) := by
        intro fc
        have hrel := runLoop_core_congr u₁ u₂ clock w (clock 2) r.body
          { downloaded := 0, ttfb := none, fileContents := fc, lastUpdate := clock 3,
            lastDownloaded := 0, reads := 4, msgs := [], wIdx := 0 }
          { downloaded := 0, ttfb := none, fileContents := fc, lastUpdate := clock 3,
            lastDownloaded := 0, reads := 4, msgs := [], wIdx := 0 } rfl
        cases h1 : runLoop u₁ clock w (clock 2) r.body
            { downloaded := 0, ttfb := none, fileContents := fc, lastUpdate := clock 3,
              lastDownloaded := 0, reads := 4, msgs := [], wIdx := 0 } with
        | error e₁ =>
          cases h2 : runLoop u₂ clock w (clock 2) r.body
              { downloaded := 0, ttfb := none, fileContents := fc, lastUpdate := clock 3,
                lastDownloaded := 0, reads := 4, msgs := [], wIdx := 0 } with
          | error e₂ =>
            rw [h1, h2] at hrel
            cases hrel
            rfl
          | ok st₂ =>
            rw [h1, h2] at hrel
            cases hrel
        | ok st₁ =>
          cases h2 : runLoop u₂ clock w (clock 2) r.body
              { downloaded := 0, ttfb := none, fileContents := fc, lastUpdate := clock 3,
                lastDownloaded := 0, reads := 4, msgs := [], wIdx := 0 } with
          | error e₂ =>
            rw [h1, h2] at hrel
            cases hrel
          | ok st₂ =>
            rw [h1, h2] at hrel
            have hd : st₁.downloaded = st₂.downloaded := congrArg (fun p => p.1) hrel
            have ht : st₁.ttfb = st₂.ttfb := congrArg (fun p => p.2.1) hrel
            have hr : st₁.reads = st₂.reads := congrArg (fun p => p.2.2.2.2.2.1) hrel
            dsimp only [Except.map]
            rw [hd, ht, hr]
      cases sp with
      | none => exact main none
      | some p =>
        cases c with
        | false => rfl
        | true =>
          dsimp only
          exact main (some [])

end CongrLemmas

/-- C4: in `format_speed` every unit-threshold comparison is inclusive
(`>=`): at each power boundary the rate formats in the larger unit as
`1.00 <unit>`, not as `1000.00/1024.00 <smaller unit>`, in all four
`SpeedUnit` branches at their respective bases (bits-metric at
10^3/10^6/10^9 bits/s, bits-binary at 2^10/2^20/2^30 bits/s,
bytes-metric at 1000^k bytes/s, bytes-binary at 1024^k bytes/s). -/
theorem format_speed_thresholds_inclusive :
    format_speed 125 .BitsMetric = "1.00 Kbps" ∧
    format_speed 125000 .BitsMetric = "1.00 Mbps" ∧
    format_speed 125000000 .BitsMetric = "1.00 Gbps" ∧
    format_speed 128 .BitsBinary = "1.00 Kibps" ∧
    format_speed 131072 .BitsBinary = "1.00 Mibps" ∧
    format_speed 134217728 .BitsBinary = "1.00 Gibps" ∧
    format_speed 1000 .BytesMetric = "1.00 KB/s" ∧
    format_speed 1000000 .BytesMetric = "1.00 MB/s" ∧
    format_speed 1000000000 .BytesMetric = "1.00 GB/s" ∧
    format_speed 1024 .BytesBinary = "1.00 KB/s" ∧
    format_speed 1048576 .BytesBinary = "1.00 MB/s" ∧
    format_speed 1073741824 .BytesBinary = "1.00 GB/s" := by
  refine ⟨?_, ?_, ?_, ?_, ?_, ?_, ?_, ?_, ?_, ?_, ?_, ?_⟩
  · norm_num [format_speed, fmt2_one]
    rfl
  · norm_num [format_speed, fmt2_one]
    rfl
  · norm_num [format_speed, fmt2_one]
    rfl
  · norm_num [format_speed, fmt2_one]
    rfl
  · norm_num [format_speed, fmt2_one]
    rfl
  · norm_num [format_speed, fmt2_one]
    rfl
  · rw [format_speed, f64AsU64_eval 1000 1000 (by norm_num) (by decide)]
    norm_num [byteSizeDisplaySi, fmt2_one]
    rfl
  · rw [format_speed, f64AsU64_eval 1000000 1000000 (by norm_num) (by decide)]
    norm_num [byteSizeDisplaySi, fmt2_one]
    rfl
  · rw [format_speed, f64AsU64_eval 1000000000 1000000000 (by norm_num) (by decide)]
    norm_num [byteSizeDisplaySi, fmt2_one]
    rfl
  · rw [format_speed, f64AsU64_eval 1024 1024 (by norm_num) (by decide)]
    norm_num [byteSizeDisplayBinary, fmt2_one]
    rfl
  · rw [format_speed, f64AsU64_eval 1048576 1048576 (by norm_num) (by decide)]
    norm_num [byteSizeDisplayBinary, fmt2_one]
    rfl
  · rw [format_speed, f64AsU64_eval 1073741824 1073741824 (by norm_num) (by decide)]
    norm_num [byteSizeDisplayBinary, fmt2_one]
    rfl

/-- C7: `format_speed` at a rate of exactly 0 bytes/s returns the unit's
zero-rate string with two decimals and no sign, for all four units, with
no division performed (the 0 rate falls through every `>=` threshold to
the unscaled branch). -/
theorem format_speed_zero :
    format_speed 0 .BitsMetric = "0.00 bps" ∧
    format_speed 0 .BitsBinary = "0.00 bps" ∧
    format_speed 0 .BytesMetric = "0.00 B/s" ∧
    format_speed 0 .BytesBinary = "0.00 B/s" := by
  refine ⟨?_, ?_, ?_, ?_⟩
  · norm_num [format_speed, fmt2_zero]
    rfl
  · norm_num [format_speed, fmt2_zero]
    rfl
  · rw [format_speed, f64AsU64_eval 0 0 (by norm_num) (by decide)]
    norm_num [byteSizeDisplaySi, fmt2_zero]
    rfl
  · rw [format_speed, f64AsU64_eval 0 0 (by norm_num) (by decide)]
    norm_num [byteSizeDisplayBinary, fmt2_zero]
    rfl

/-- C10: `escape_csv` returns the string unchanged when it contains no
comma, double-quote or newline; otherwise it returns it quoted with
interior double-quotes doubled, and standard CSV unquoting of the output
recovers the original exactly (round-trip). -/
theorem escape_csv_roundtrip (s : List Char) :
    (¬ (s.contains ',' ∨ s.contains '"' ∨ s.contains '\n') → escape_csv s = s) ∧
    csvUnquote (escape_csv s) = s := by
  constructor
  · intro h
    rw [escape_csv, if_neg h]
  · by_cases h : s.contains ',' ∨ s.contains '"' ∨ s.contains '\n'
    · exact csvUnquote_escape_quoted s h
    · rw [escape_csv, if_neg h]
      apply csvUnquote_no_quote
      rcases Bool.eq_false_or_eq_true (s.contains '"') with hq | hq
      · exact absurd (Or.inr (Or.inl hq)) h
      · exact hq

/-- C10 witness: a field with a comma and a quote round-trips; a plain
field is returned unchanged. -/
theorem escape_csv_roundtrip_witness :
    csvUnquote (escape_csv ("a,\"b".data)) = "a,\"b".data ∧
    escape_csv ("plain".data) = "plain".data :=
  ⟨(escape_csv_roundtrip ("a,\"b".data)).2,
   (escape_csv_roundtrip ("plain".data)).1 (by decide)⟩

/-- C1: a completed HTTP exchange (headers received, every body chunk
delivered, file operations succeeding) returns `Ok` with a fully
populated `DownloadResult` whose `status_code` is the response status and
whose `bytes_downloaded` counts the body bytes — for every status,
including non-2xx; a non-2xx status is never mapped to the error branch. -/
theorem download_file_completed_is_ok (url ua : String) (sp : Option String)
    (unit : SpeedUnit) (status : ℕ) (cl : Option ℕ) (cs : List Chunk)
    (w : ℕ → Bool) (clock : ℕ → ℚ) (hw : ∀ i, w i = true) :
    ∃ out, download_file url sp ua unit (.resp ⟨status, cl, okBody cs⟩)
        true true w clock = .ok out ∧
      out.result.status_code = status ∧
      out.result.bytes_downloaded = (cs.map List.length).sum := by
  cases sp with
  | none =>
    obtain ⟨out, heq, hst, hconn, hbytes, httfb, htot, hfile, hreads⟩ :=
      download_file_ok_nosave unit clock w url ua status cl true cs hw
    exact ⟨out, heq, hst, hbytes⟩
  | some p =>
    obtain ⟨out, heq, hst, hconn, hbytes, httfb, htot, hfile, hreads⟩ :=
      download_file_ok_save unit clock w url ua p status cl cs hw
    exact ⟨out, heq, hst, hbytes⟩

/-- C1 witness: an HTTP 404 response with a 50-byte body still yields
`Ok` with `status_code = 404` and `bytes_downloaded = 50`. -/
theorem download_file_completed_is_ok_witness :
    ∃ out, download_file "http://example.com/f" none "Mozilla/5.0" SpeedUnit.BitsMetric
        (.resp ⟨404, some 50, okBody [List.replicate 50 0]⟩) true true
        (fun _ => true) (fun _ => 0) = .ok out ∧
      out.result.status_code = 404 ∧
      out.result.bytes_downloaded = 50 := by
  obtain ⟨out, heq, hst, hbytes⟩ :=
    download_file_completed_is_ok "http://example.com/f" "Mozilla/5.0" none
      SpeedUnit.BitsMetric 404 (some 50) [List.replicate 50 0]
      (fun _ => true) (fun _ => 0) (fun i => rfl)
  refine ⟨out, heq, hst, ?_⟩
  rw [hbytes]
  simp

/-- C2: `ttfb` is measured from the clock read taken immediately after
the response headers (read 2), not from request start (read 0), and it is
set on the first body chunk only (read 4, regardless of later chunks);
`connect_time` spans reads 0→1, so the two are independent sub-intervals
of `total_time`, not cumulative. -/
theorem download_file_ttfb_decomposition (url ua : String) (sp : Option String)
    (unit : SpeedUnit) (status : ℕ) (cl : Option ℕ) (c : Chunk) (rest : List Chunk)
    (w : ℕ → Bool) (clock : ℕ → ℚ) (hw : ∀ i, w i = true) :
    ∃ out, download_file url sp ua unit (.resp ⟨status, cl, okBody (c :: rest)⟩)
        true true w clock = .ok out ∧
      out.result.ttfb = satSub (clock 4) (clock 2) ∧
      out.result.connect_time = satSub (clock 1) (clock 0) := by
  cases sp with
  | none =>
    obtain ⟨out, heq, hst, hconn, hbytes, httfb, htot, hfile, hreads⟩ :=
      download_file_ok_nosave unit clock w url ua status cl true (c :: rest) hw
    refine ⟨out, heq, ?_, hconn⟩
    rw [httfb, if_neg (List.cons_ne_nil c rest)]
  | some p =>
    obtain ⟨out, heq, hst, hconn, hbytes, httfb, htot, hfile, hreads⟩ :=
      download_file_ok_save unit clock w url ua p status cl (c :: rest) hw
    refine ⟨out, heq, ?_, hconn⟩
    rw [httfb, if_neg (List.cons_ne_nil c rest)]

/-- C2 witness: a one-chunk body at a concrete clock. -/
theorem download_file_ttfb_decomposition_witness :
    ∃ out, download_file "http://example.com/f" none "Mozilla/5.0" SpeedUnit.BitsMetric
        (.resp ⟨200, none, okBody [[7]]⟩) true true (fun _ => true) (fun _ => 0)
        = .ok out ∧
      out.result.ttfb = satSub 0 0 ∧
      out.result.connect_time = satSub 0 0 :=
  download_file_ttfb_decomposition "http://example.com/f" "Mozilla/5.0" none
    SpeedUnit.BitsMetric 200 none [7] [] (fun _ => true) (fun _ => 0) (fun i => rfl)

/-- C3: a successful invocation whose body stream yields zero chunks
returns `ttfb = connect_time` (the documented substitution) and
`bytes_downloaded = 0`. -/
theorem download_file_empty_body (url ua : String) (sp : Option String)
    (unit : SpeedUnit) (status : ℕ) (cl : Option ℕ) (b c : Bool) (w : ℕ → Bool)
    (clock : ℕ → ℚ) (out : EngineOutcome)
    (h : download_file url sp ua unit (.resp ⟨status, cl, []⟩) b c w clock = .ok out) :
    out.result.ttfb = out.result.connect_time ∧ out.result.bytes_downloaded = 0 := by
  obtain ⟨r, st, fc, hnet, hfc, hrun, hstc, hconn, httfb, htot, hbytes, hfile, hreads⟩ :=
    download_file_ok_inv url ua sp unit _ b c w clock out h
  injection hnet with hr
  subst hr
  rw [runLoop] at hrun
  cases hrun
  constructor
  · rw [httfb, hconn]
    rfl
  · rw [hbytes]

/-- C3 witness: a concrete zero-chunk run. -/
theorem download_file_empty_body_witness :
    ∃ out, download_file "http://example.com/f" none "Mozilla/5.0" SpeedUnit.BitsMetric
        (.resp ⟨200, none, []⟩) true true (fun _ => true) (fun _ => 0) = .ok out ∧
      out.result.ttfb = out.result.connect_time ∧ out.result.bytes_downloaded = 0 := by
  have h : download_file "http://example.com/f" none "Mozilla/5.0" SpeedUnit.BitsMetric
      (.resp ⟨200, none, []⟩) true true (fun _ => true) (fun _ => 0) =
      .ok { result := { status_code := 200, connect_time := satSub 0 0, ttfb := satSub 0 0,
                        total_time := satSub 0 0, bytes_downloaded := 0 },
            fileWritten := none, progressMsgs := [], clockReads := 5, usedBar := false } := rfl
  exact ⟨_, h, download_file_empty_body "http://example.com/f" "Mozilla/5.0" none
    SpeedUnit.BitsMetric 200 none true true (fun _ => true) (fun _ => 0) _ h⟩

/-- C5: for a successful invocation over an error-free body,
`bytes_downloaded` is the sum of all chunk lengths, and when a save path
was given the written file is exactly the concatenation of the chunks in
arrival order, so its byte length equals `bytes_downloaded`. -/
theorem download_file_byte_accounting (url ua : String) (sp : Option String)
    (unit : SpeedUnit) (status : ℕ) (cl : Option ℕ) (cs : List Chunk) (b c : Bool)
    (w : ℕ → Bool) (clock : ℕ → ℚ) (out : EngineOutcome)
    (h : download_file url sp ua unit (.resp ⟨status, cl, okBody cs⟩) b c w clock = .ok out) :
    out.result.bytes_downloaded = (cs.map List.length).sum ∧
      (sp ≠ none → out.fileWritten = some cs.flatten ∧
        cs.flatten.length = out.result.bytes_downloaded) := by
  obtain ⟨r, st, fc, hnet, hfc, hrun, hstc, hconn, httfb, htot, hbytes, hfile, hreads⟩ :=
    download_file_ok_inv url ua sp unit _ b c w clock out h
  injection hnet with hr
  subst hr
  obtain ⟨hd, hf⟩ := runLoop_ok_inversion unit clock w (clock 2) cs _ _ hrun
  have hbytes2 : out.result.bytes_downloaded = (cs.map List.length).sum := by
    rw [hbytes, hd]
    simp
  refine ⟨hbytes2, ?_⟩
  intro hsp
  rcases hfc with ⟨hsp2, _⟩ | ⟨_, hfcv⟩
  · exact absurd hsp2 hsp
  · subst hfcv
    have hfile2 : out.fileWritten = some cs.flatten := by
      rw [hfile, hf]
      simp
    refine ⟨hfile2, ?_⟩
    rw [hbytes2]
    exact List.length_flatten cs

/-- C5 witness: a concrete saved run (zero-chunk body, save path set). -/
theorem download_file_byte_accounting_witness :
    ∃ out, download_file "http://example.com/f" (some "out.dat") "Mozilla/5.0"
        SpeedUnit.BitsMetric (.resp ⟨200, none, okBody []⟩) true true
        (fun _ => true) (fun _ => 0) = .ok out ∧
      out.result.bytes_downloaded = 0 ∧
      out.fileWritten = some [] := by
  have h : download_file "http://example.com/f" (some "out.dat") "Mozilla/5.0"
      SpeedUnit.BitsMetric (.resp ⟨200, none, okBody []⟩) true true
      (fun _ => true) (fun _ => 0) =
      .ok { result := { status_code := 200, connect_time := satSub 0 0, ttfb := satSub 0 0,
                        total_time := satSub 0 0, bytes_downloaded := 0 },
            fileWritten := some [], progressMsgs := [], clockReads := 5, usedBar := false } := rfl
  obtain ⟨h1, h2⟩ := download_file_byte_accounting "http://example.com/f" "Mozilla/5.0"
    (some "out.dat") SpeedUnit.BitsMetric 200 none [] true true
    (fun _ => true) (fun _ => 0) _ h
  obtain ⟨h3, h4⟩ := h2 (by simp)
  exact ⟨_, h, by rw [h1]; rfl, by rw [h3]; rfl⟩

/-- C6: every successful invocation (any network behavior, any save path,
any write behavior), under a monotone clock, satisfies
`0 ≤ connect_time ≤ total_time` and `ttfb ≥ 0`. -/
theorem download_file_time_invariants (url ua : String) (sp : Option String)
    (unit : SpeedUnit) (net : NetBehavior) (b c : Bool) (w : ℕ → Bool)
    (clock : ℕ → ℚ) (out : EngineOutcome)
    (h : download_file url sp ua unit net b c w clock = .ok out)
    (hmono : ∀ i j, i ≤ j → clock i ≤ clock j) :
    0 ≤ out.result.connect_time ∧
      out.result.connect_time ≤ out.result.total_time ∧
      0 ≤ out.result.ttfb := by
  obtain ⟨r, st, fc, hnet, hfc, hrun, hstc, hconn, httfb, htot, hbytes, hfile, hreads⟩ :=
    download_file_ok_inv url ua sp unit net b c w clock out h
  obtain ⟨hr, hshape⟩ := runLoop_ok_shape unit clock w (clock 2) r.body _ st hrun
  have hr4 : 4 ≤ st.reads := hr
  refine ⟨?_, ?_, ?_⟩
  · rw [hconn]
    exact satSub_nonneg _ _
  · rw [hconn, htot]
    exact satSub_le_satSub _ _ _ (hmono 1 st.reads (by omega))
  · rw [httfb]
    cases hst : st.ttfb with
    | none =>
      simp only [Option.getD_none]
      exact satSub_nonneg _ _
    | some v =>
      rcases hshape with he | ⟨k, hk⟩
      · rw [hst] at he
        cases he
      · rw [hst] at hk
        injection hk with hv
        rw [hv]
        simp only [Option.getD_some]
        exact satSub_nonneg _ _

/-- C6 witness: a concrete successful run with the identity clock. -/
theorem download_file_time_invariants_witness :
    ∃ out, download_file "http://example.com/f" none "Mozilla/5.0" SpeedUnit.BitsMetric
        (.resp ⟨200, none, []⟩) true true (fun _ => true) (fun i => (i : ℚ)) = .ok out ∧
      (0 ≤ out.result.connect_time ∧
        out.result.connect_time ≤ out.result.total_time ∧
        0 ≤ out.result.ttfb) := by
  have h : download_file "http://example.com/f" none "Mozilla/5.0" SpeedUnit.BitsMetric
      (.resp ⟨200, none, []⟩) true true (fun _ => true) (fun i => (i : ℚ)) =
      .ok { result := { status_code := 200, connect_time := satSub 1 0, ttfb := satSub 1 0,
                        total_time := satSub 4 0, bytes_downloaded := 0 },
            fileWritten := none, progressMsgs := [], clockReads := 5, usedBar := false } := rfl
  exact ⟨_, h, download_file_time_invariants "http://example.com/f" "Mozilla/5.0" none
    SpeedUnit.BitsMetric (.resp ⟨200, none, []⟩) true true (fun _ => true)
    (fun i => (i : ℚ)) _ h (fun i j hij => by simp only []; exact_mod_cast hij)⟩

/-- C8 counterexample: at a concrete completed run with a zero-chunk body
the engine performs 5 monotonic-clock reads, not 4 (the extra reads are
the post-header `ttfb_start` at line 76 and the `last_update`
initialization at line 98; on top of the four the claim names, the loop
also reads the clock once per chunk at line 118). -/
theorem clock_read_count_counterexample :
    ∃ out, download_file "http://example.com/f" none "Mozilla/5.0" SpeedUnit.BitsMetric
        (.resp ⟨200, none, []⟩) true true (fun _ => true) (fun _ => 0) = .ok out ∧
      out.clockReads = 5 ∧ ¬ out.clockReads = 4 := by
  have h : download_file "http://example.com/f" none "Mozilla/5.0" SpeedUnit.BitsMetric
      (.resp ⟨200, none, []⟩) true true (fun _ => true) (fun _ => 0) =
      .ok { result := { status_code := 200, connect_time := satSub 0 0, ttfb := satSub 0 0,
                        total_time := satSub 0 0, bytes_downloaded := 0 },
            fileWritten := none, progressMsgs := [], clockReads := 5, usedBar := false } := rfl
  exact ⟨_, h, rfl, by decide⟩

/-- C8 amended: a completed exchange with `n` chunks performs
`5 + n + (n = 0 ? 0 : 1)` monotonic-clock reads: the four the spec names
(start, post-headers via `start.elapsed()`, the first-chunk `ttfb` read,
and the final `total_time` read) plus the post-header `ttfb_start`
origin, the `last_update` initialization, and one read per chunk for the
100ms progress cadence check. -/
theorem clock_read_count (url ua : String) (sp : Option String) (unit : SpeedUnit)
    (status : ℕ) (cl : Option ℕ) (cs : List Chunk) (w : ℕ → Bool) (clock : ℕ → ℚ)
    (hw : ∀ i, w i = true) :
    ∃ out, download_file url sp ua unit (.resp ⟨status, cl, okBody cs⟩)
        true true w clock = .ok out ∧
      out.clockReads = 5 + cs.length + (if cs = [] then 0 else 1) := by
  cases sp with
  | none =>
    obtain ⟨out, heq, hst, hconn, hbytes, httfb, htot, hfile, hreads⟩ :=
      download_file_ok_nosave unit clock w url ua status cl true cs hw
    exact ⟨out, heq, hreads⟩
  | some p =>
    obtain ⟨out, heq, hst, hconn, hbytes, httfb, htot, hfile, hreads⟩ :=
      download_file_ok_save unit clock w url ua p status cl cs hw
    exact ⟨out, heq, hreads⟩

/-- C8 amended witness: two chunks give 5 + 2 + 1 = 8 clock reads. -/
theorem clock_read_count_witness :
    ∃ out, download_file "http://example.com/f" none "Mozilla/5.0" SpeedUnit.BitsMetric
        (.resp ⟨200, none, okBody [[1], [2]]⟩) true true (fun _ => true) (fun _ => 0)
        = .ok out ∧
      out.clockReads = 8 := by
  obtain ⟨out, heq, hreads⟩ :=
    clock_read_count "http://example.com/f" "Mozilla/5.0" none SpeedUnit.BitsMetric
      200 none [[1], [2]] (fun _ => true) (fun _ => 0) (fun i => rfl)
  refine ⟨out, heq, ?_⟩
  rw [hreads]
  simp

/-- C9: two invocations identical in everything (url, save path, user
agent, network behavior, clock, file behavior) except `speed_unit`
return the same `DownloadResult` in every field (and fail identically):
`speed_unit` influences only the transient progress text. -/
theorem speed_unit_only_affects_progress (url ua : String) (sp : Option String)
    (u₁ u₂ : SpeedUnit) (net : NetBehavior) (b c : Bool) (w : ℕ → Bool)
    (clock : ℕ → ℚ) :
    (download_file url sp ua u₁ net b c w clock).map (fun o => o.result) =
    (download_file url sp ua u₂ net b c w clock).map (fun o => o.result) :=
  download_file_unit_congr url ua sp u₁ u₂ net b c w clock
